import Mathlib

/-!
Verification of the job-scheduler core (NestJS `JobsService`, `JobRepository`,
`BullJobScheduler`, `JobLoggerService`, `JobProcessor`) against its
natural-language specification.

The embedding models:
  * the Mongoose `Job` and `JobExecution` documents as Lean structures;
  * the persistence store, the execution log and the Bull queue of pending
    delayed wake-ups as one explicit `SystemState`; a queued entry carries
    Bull's per-entry attempt counter and its `attempts` option
    (`maxRetries + 1`, set when the entry is added);
  * each service operation (`createJob`, `updateJob`, `cancelJob`,
    `executeJob`, `handleJobFailure`, `scheduleNextRecurrence`) as a pure
    state-passing function translated line by line from
    `src/jobs/services/jobs.service.ts`;
  * `JobLoggerService.logExecution` distinguishing its two kinds of argument:
    a plain object literal (the first call in `executeJob`) inserts a fresh
    document, while a previously saved Mongoose document (both finalization
    call sites) is spread with `{...execution}` — which copies only the
    document's internal own properties, not its schema paths — so the new
    document lacks the required `status`/`startedAt` and `save()` rejects
    with a validation error;
  * the resulting control flow: both finalization calls reject, so
    `handleJobFailure` rejects, `executeJob` rejects, `JobProcessor`
    rethrows, and Bull redelivers the entry (exponential backoff) while its
    attempt counter is below `attempts` — modelled by `deliverWakeUp`;
  * `BullJobScheduler.calculateNextRunTime` together with JavaScript
    `Date.setHours/setDate/setMonth` normalization semantics (day overflow
    rolls into the following month; months are 0-indexed as in JS).

The pluggable Execution Capability (`IJobExecutor.execute`) is a parameter
`Job → Except String String` (error message or opaque result).
-/

/-- `JobStatus` from `src/jobs/schemas/job.schema.ts`. -/
inductive JobStatus where
  | pending
  | running
  | completed
  | failed
  | cancelled
deriving Repr, DecidableEq

/-- `JobType` from `src/jobs/schemas/job.schema.ts` (`one_time`, `recurring`). -/
inductive JobType where
  | oneTime
  | recurring
deriving Repr, DecidableEq

/-- `RecurrencePattern` from `src/jobs/schemas/job.schema.ts`. -/
inductive RecurrencePattern where
  | hourly
  | daily
  | weekly
  | monthly
deriving Repr, DecidableEq

/-- `ExecutionStatus` from `src/jobs/schemas/job-execution.schema.ts`. -/
inductive ExecutionStatus where
  | success
  | failed
deriving Repr, DecidableEq

/-- A calendar date-time, the shallow embedding of a JavaScript `Date`.
`month` is 0-indexed (January = 0), exactly as `Date.getMonth`/`setMonth`. -/
structure DateTime where
  year : Nat
  month : Nat
  day : Nat
  hour : Nat
deriving Repr, DecidableEq

/-- Gregorian leap-year rule used by JavaScript `Date`. -/
def isLeapYear (y : Nat) : Bool :=
  (y % 4 == 0 && y % 100 != 0) || y % 400 == 0

/-- Number of days of 0-indexed month `m` of year `y` (JS calendar). -/
def daysInMonth (y m : Nat) : Nat :=
  match m with
  | 0 => 31
  | 1 => if isLeapYear y then 29 else 28
  | 2 => 31
  | 3 => 30
  | 4 => 31
  | 5 => 30
  | 6 => 31
  | 7 => 31
  | 8 => 30
  | 9 => 31
  | 10 => 30
  | _ => 31

/-- JavaScript `Date` field normalization: a month index ≥ 12 carries into the
year, and a day-of-month larger than the current month's length rolls over
into the following month (this is the behavior of `setMonth`/`setDate` on an
out-of-range day: no clamping). Fuel-bounded; callers pass ample fuel. -/
def normDays : Nat → Nat → Nat → Nat → Nat × Nat × Nat
  | 0, y, m, d => (y, m, d)
  | fuel + 1, y, m, d =>
    let y1 := y + m / 12
    let m1 := m % 12
    if d ≤ daysInMonth y1 m1 then (y1, m1, d)
    else normDays fuel y1 (m1 + 1) (d - daysInMonth y1 m1)

/-- `next.setHours(next.getHours() + h)` on the embedded `Date`. -/
def addHoursJS (dt : DateTime) (h : Nat) : DateTime :=
  let totalH := dt.hour + h
  let r := normDays 60 dt.year dt.month (dt.day + totalH / 24)
  ⟨r.1, r.2.1, r.2.2, totalH % 24⟩

/-- `next.setDate(next.getDate() + n)` on the embedded `Date`. -/
def addDaysJS (dt : DateTime) (n : Nat) : DateTime :=
  let r := normDays 60 dt.year dt.month (dt.day + n)
  ⟨r.1, r.2.1, r.2.2, dt.hour⟩

/-- `next.setMonth(next.getMonth() + n)` on the embedded `Date`: the month
index is advanced and the (kept) day-of-month is renormalized by JS rollover. -/
def addMonthsJS (dt : DateTime) (n : Nat) : DateTime :=
  let r := normDays 60 dt.year (dt.month + n) dt.day
  ⟨r.1, r.2.1, r.2.2, dt.hour⟩

/-- `BullJobScheduler.calculateNextRunTime` (job-scheduler service source,
embedded at the end of `jobs.service.spec.ts`): switch on the pattern and
mutate a copy of `currentTime` with native `Date` arithmetic. -/
def calculateNextRunTime (currentTime : DateTime) (pattern : RecurrencePattern) : DateTime :=
  match pattern with
  | RecurrencePattern.hourly => addHoursJS currentTime 1
  | RecurrencePattern.daily => addDaysJS currentTime 1
  | RecurrencePattern.weekly => addDaysJS currentTime 7
  | RecurrencePattern.monthly => addMonthsJS currentTime 1

/-- The `Job` document (`src/jobs/schemas/job.schema.ts`). `payload` and
`result` are opaque to the orchestrator and embedded as `Option String`;
ids are `Nat`. Schema defaults: `status = pending`, `retryCount = 0`,
`maxRetries = 3`, `isActive = true`. -/
structure Job where
  id : Nat
  userId : Nat
  name : String
  description : Option String
  type : JobType
  status : JobStatus
  payload : Option String
  scheduledAt : Option DateTime
  startedAt : Option DateTime
  completedAt : Option DateTime
  recurrencePattern : Option RecurrencePattern
  retryCount : Nat
  maxRetries : Nat
  errorMessage : Option String
  result : Option String
  nextRunAt : Option DateTime
  isActive : Bool
deriving Repr, DecidableEq

/-- The `JobExecution` document (`src/jobs/schemas/job-execution.schema.ts`).
`status` and `startedAt` are required paths of the schema. -/
structure JobExecution where
  id : Nat
  jobId : Nat
  status : ExecutionStatus
  startedAt : DateTime
  completedAt : Option DateTime
  errorMessage : Option String
  result : Option String
  attemptNumber : Nat
deriving Repr, DecidableEq

/-- `CreateJobDto` (`src/jobs/dto/create-job.dto.ts`). `maxRetries` is kept
as `Int` so the `@Min(0)`/`@Max(10)` validators are meaningful. -/
structure CreateJobDto where
  name : String
  description : Option String
  type : JobType
  payload : Option String
  scheduledAt : Option DateTime
  recurrencePattern : Option RecurrencePattern
  maxRetries : Option Int
deriving Repr, DecidableEq

/-- `UpdateJobDto` (`src/jobs/dto/update-job.dto.ts`): every field optional. -/
structure UpdateJobDto where
  name : Option String
  description : Option String
  payload : Option String
  scheduledAt : Option DateTime
  recurrencePattern : Option RecurrencePattern
  maxRetries : Option Int
deriving Repr, DecidableEq

/-- Errors thrown by the service layer: `NotFoundException`, the plain
`Error("Cannot cancel job in <status> status")` thrown by `cancelJob`, and
the `BadRequestException` produced by the global `ValidationPipe`. -/
inductive ServiceError where
  | notFound
  | cannotCancel (status : JobStatus)
  | validationError
deriving Repr, DecidableEq

/-- One delayed entry of the Bull `jobs` queue: the payload's job id,
Bull's attempt counter for the entry, and the `attempts` option fixed at
`queue.add` time (`job.maxRetries + 1` in `BullJobScheduler.scheduleJob`). -/
structure QueueEntry where
  jobId : Nat
  attemptsMade : Nat
  attempts : Nat
deriving Repr, DecidableEq

/-- Whole-system state: the Mongo `jobs` collection, the `job_executions`
collection, the Bull queue's pending delayed entries, and the next fresh
`_id` for an execution document. -/
structure SystemState where
  jobs : List Job
  executions : List JobExecution
  armed : List QueueEntry
  nextExecId : Nat
deriving Repr, DecidableEq

/-- `jobModel.findById` (by `_id` only, as in `executeJob`). -/
def findJob (jobs : List Job) (id : Nat) : Option Job :=
  jobs.find? (fun j => j.id == id)

/-- `JobRepository.findById(id, userId)`: match on `_id` and `userId`. -/
def findByIdUser (jobs : List Job) (id userId : Nat) : Option Job :=
  jobs.find? (fun j => j.id == id && j.userId == userId)

/-- Mongoose `document.save()`: persist the document under its `_id`. -/
def saveJob (jobs : List Job) (j : Job) : List Job :=
  jobs.map (fun x => if x.id == j.id then j else x)

/-- `BullJobScheduler.scheduleJob`: `queue.add` with an explicit `jobId`
option and `attempts: job.maxRetries + 1` (exponential backoff). Bull
ignores an add whose custom job id is already present. -/
def schedulerScheduleJob (armed : List QueueEntry) (job : Job) : List QueueEntry :=
  if armed.any (fun e => e.jobId == job.id) then armed
  else armed ++ [{ jobId := job.id, attemptsMade := 0, attempts := job.maxRetries + 1 }]

/-- `BullJobScheduler.cancelJob`: `getJob(jobId)` then `remove()` if present. -/
def schedulerCancelJob (armed : List QueueEntry) (jobId : Nat) : List QueueEntry :=
  armed.filter (fun e => e.jobId != jobId)

/-- `BullJobScheduler.rescheduleJob`: cancel then schedule with the job. -/
def schedulerRescheduleJob (armed : List QueueEntry) (job : Job) : List QueueEntry :=
  schedulerScheduleJob (schedulerCancelJob armed job.id) job

/-- The two kinds of argument `JobLoggerService.logExecution` receives:
a plain object literal (the first call in `executeJob`) or a previously
saved Mongoose document (both finalization call sites pass the document
returned by the first call). -/
inductive ExecutionPayload where
  | plain (e : JobExecution)
  | document (e : JobExecution)
deriving Repr, DecidableEq

/-- The message of the Mongoose validation error raised when the spread of
a document loses the required `status`/`startedAt` paths and `save()`
rejects. -/
def logValidationErrorMessage : String :=
  "JobExecution validation failed: status and startedAt are required"

/-- The insert performed by `new executionModel({...}).save()` when the
constructor receives a plain object with the schema fields: a fresh document
(fresh `_id`) is appended. Returns the new state and the saved document. -/
def insertExecution (st : SystemState) (e : JobExecution) : SystemState × JobExecution :=
  let saved := { e with id := st.nextExecId }
  ({ st with
      executions := st.executions ++ [saved],
      nextExecId := st.nextExecId + 1 },
    saved)

/-- `JobLoggerService.logExecution`: `new this.executionModel({...execution,
jobId: ...}).save()`. For a plain object literal the spread preserves the
fields and the insert succeeds. For a hydrated Mongoose document the spread
copies only the document's internal own properties (schema paths live on the
prototype), so the constructed document lacks the required `status` and
`startedAt` and `save()` rejects with a validation error — no record is
inserted. -/
def logExecution (st : SystemState) (p : ExecutionPayload) :
    SystemState × Except String JobExecution :=
  match p with
  | ExecutionPayload.plain e =>
      ((insertExecution st e).1, Except.ok (insertExecution st e).2)
  | ExecutionPayload.document _ =>
      (st, Except.error logValidationErrorMessage)

/-- `JobLoggerService.getExecutionHistory`: all execution documents of the
job (the source sorts by `createdAt` descending and limits to 50; only
membership and count matter here). -/
def getExecutionHistory (st : SystemState) (jobId : Nat) : List JobExecution :=
  st.executions.filter (fun e => e.jobId == jobId)

/-- The provisional `JobExecution` built at the start of `executeJob`
(lines 130–135): `attemptNumber = retryCount + 1`, placeholder failed
outcome, nothing else set. -/
def provisionalRecord (job : Job) (now : DateTime) : JobExecution :=
  { id := 0,
    jobId := job.id,
    startedAt := now,
    attemptNumber := job.retryCount + 1,
    status := ExecutionStatus.failed,
    completedAt := none,
    errorMessage := none,
    result := none }

/-- The in-memory mutation of lines 138–139: `status = running`,
`startedAt = now`. -/
def runningJob (job : Job) (now : DateTime) : Job :=
  { job with status := JobStatus.running, startedAt := some now }

/-- The in-memory mutation of lines 144–147 after a capability success. -/
def completedOf (job : Job) (now : DateTime) (res : String) : Job :=
  { job with
      status := JobStatus.completed,
      completedAt := some now,
      result := some res,
      errorMessage := none }

/-- The in-memory mutation of lines 149–151 on the execution document. -/
def finalizedSuccess (e : JobExecution) (now : DateTime) (res : String) : JobExecution :=
  { e with
      status := ExecutionStatus.success,
      completedAt := some now,
      result := some res }

/-- The mutation `handleJobFailure` applies to the job document
(`jobs.service.ts` lines 174–192): increment `retryCount`, record the error
message, then `status := failed` if `retryCount >= maxRetries` else
`status := pending`. -/
def failureTransition (job : Job) (msg : String) : Job :=
  let job1 := { job with retryCount := job.retryCount + 1, errorMessage := some msg }
  if job1.retryCount ≥ job1.maxRetries then
    { job1 with status := JobStatus.failed }
  else
    { job1 with status := JobStatus.pending }

/-- `JobsService.handleJobFailure` (lines 167–196): mutate the job per
`failureTransition`, mutate the in-memory execution document, `job.save()`
(line 194, persists), then `logExecution(execution)` (line 195) — which
receives the hydrated document, so the insert rejects and the whole method
rejects with the validation error. It never calls the scheduler. -/
def handleJobFailure (now : DateTime) (st : SystemState) (job : Job)
    (execution : JobExecution) (msg : String) : SystemState × Except String Unit :=
  let job2 := failureTransition job msg
  let execution1 := { execution with
    status := ExecutionStatus.failed,
    completedAt := some now,
    errorMessage := some msg }
  let st1 := { st with jobs := saveJob st.jobs job2 }
  match logExecution st1 (ExecutionPayload.document execution1) with
  | (st2, Except.ok _) => (st2, Except.ok ())
  | (st2, Except.error err) => (st2, Except.error err)

/-- `JobsService.scheduleNextRecurrence`: recompute `nextRunAt` via the
Recurrence Calculator, reset the job to `pending` with `retryCount = 0`,
save, and arm a wake-up. (Unreachable from `executeJob` in practice: the
finalization insert on line 154 always rejects first.) -/
def scheduleNextRecurrence (now : DateTime) (st : SystemState) (job : Job) : SystemState :=
  match job.recurrencePattern with
  | none => st
  | some pattern =>
    let nextRunAt := calculateNextRunTime now pattern
    let job1 := { job with
      nextRunAt := some nextRunAt,
      status := JobStatus.pending,
      retryCount := 0,
      startedAt := none,
      completedAt := none }
    let st1 := { st with jobs := saveJob st.jobs job1 }
    { st1 with armed := schedulerScheduleJob st1.armed job1 }

/-- `JobsService.executeJob` (`jobs.service.ts` lines 118–165), the wake-up
delivery entry point. The source performs no status check on the loaded job.
Flow: insert the provisional record (plain literal — succeeds), set
`status = running` and save, invoke the capability; on success, save the
completed job (line 153) and call `logExecution(execution)` (line 154) with
the hydrated document — the insert rejects inside the `try`, the rejection
is caught, and `handleJobFailure(job, execution, error)` runs; on a
capability failure, `handleJobFailure` runs directly. Either way
`handleJobFailure`'s own final `logExecution` rejects, so `executeJob`
rejects. The returned `Except` is the promise outcome seen by
`JobProcessor.handleJobExecution`, which rethrows it to Bull. -/
def executeJob (execCap : Job → Except String String) (now : DateTime)
    (st : SystemState) (jobId : Nat) : SystemState × Except String Unit :=
  match findJob st.jobs jobId with
  | none => (st, Except.ok ())
  | some job =>
    match logExecution st (ExecutionPayload.plain (provisionalRecord job now)) with
    | (st1, Except.error msg) => (st1, Except.error msg)
    | (st1, Except.ok execution) =>
      let st2 := { st1 with jobs := saveJob st1.jobs (runningJob job now) }
      match execCap (runningJob job now) with
      | Except.ok res =>
        let job2 := completedOf (runningJob job now) now res
        let st3 := { st2 with jobs := saveJob st2.jobs job2 }
        match logExecution st3 (ExecutionPayload.document (finalizedSuccess execution now res)) with
        | (st4, Except.ok _) =>
          if job2.type == JobType.recurring && job2.recurrencePattern.isSome then
            (scheduleNextRecurrence now st4 job2, Except.ok ())
          else (st4, Except.ok ())
        | (st4, Except.error err) =>
          handleJobFailure now st4 job2 (finalizedSuccess execution now res) err
      | Except.error msg => handleJobFailure now st2 (runningJob job now) execution msg

/-- One Bull delivery of the queued entry for `jobId`: the delayed entry
leaves the queue and `JobProcessor.handleJobExecution` awaits
`executeJob`. If the promise rejects the processor rethrows, and Bull
re-queues the entry with its attempt counter incremented (exponential
backoff) as long as `attemptsMade + 1 < attempts`; otherwise the entry is
finished (kept as completed/failed, no longer armed). -/
def deliverWakeUp (execCap : Job → Except String String) (now : DateTime)
    (st : SystemState) (jobId : Nat) : SystemState :=
  match st.armed.find? (fun e => e.jobId == jobId) with
  | none => st
  | some entry =>
    let st0 := { st with armed := st.armed.filter (fun e => e.jobId != jobId) }
    let p := executeJob execCap now st0 jobId
    match p.2 with
    | Except.ok _ => p.1
    | Except.error _ =>
      if entry.attemptsMade + 1 < entry.attempts then
        { p.1 with armed := p.1.armed ++ [{ entry with attemptsMade := entry.attemptsMade + 1 }] }
      else p.1

/-- The `class-validator` decorators of `CreateJobDto` as enforced by the
global `ValidationPipe`: `name` must be a non-empty string, and `maxRetries`,
when present, an integer in `[0, 10]`. No decorator relates
`recurrencePattern` to `type`. -/
def validateCreateJobDto (dto : CreateJobDto) : Bool :=
  (dto.name != "")
    && (match dto.maxRetries with
        | none => true
        | some m => decide (0 ≤ m) && decide (m ≤ 10))

/-- `JobRepository.create`: build the document from the dto with schema
defaults (`status = pending`, `retryCount = 0`, `maxRetries` default 3,
`isActive` default true) and `nextRunAt = scheduledAt || new Date()`. -/
def repositoryCreate (st : SystemState) (userId : Nat) (dto : CreateJobDto)
    (now : DateTime) (newId : Nat) : SystemState × Job :=
  let job : Job := {
    id := newId,
    userId := userId,
    name := dto.name,
    description := dto.description,
    type := dto.type,
    status := JobStatus.pending,
    payload := dto.payload,
    scheduledAt := dto.scheduledAt,
    startedAt := none,
    completedAt := none,
    recurrencePattern := dto.recurrencePattern,
    retryCount := 0,
    maxRetries := (dto.maxRetries.getD 3).toNat,
    errorMessage := none,
    result := none,
    nextRunAt := some (dto.scheduledAt.getD now),
    isActive := true }
  ({ st with jobs := st.jobs ++ [job] }, job)

/-- `JobsService.createJob` behind the global `ValidationPipe`: reject the
dto before persisting if validation fails; otherwise persist via the
repository and arm a wake-up via the scheduler. -/
def createJob (st : SystemState) (userId : Nat) (dto : CreateJobDto)
    (now : DateTime) (newId : Nat) : SystemState × Except ServiceError Job :=
  if validateCreateJobDto dto then
    let p := repositoryCreate st userId dto now newId
    ({ p.1 with armed := schedulerScheduleJob p.1.armed p.2 }, Except.ok p.2)
  else
    (st, Except.error ServiceError.validationError)

/-- The mutation `JobRepository.update` applies: `Object.assign(job, dto)`
field by field, then `nextRunAt := scheduledAt` when the patch carries one.
The source has no status guard of any kind. -/
def updateTransition (job : Job) (dto : UpdateJobDto) : Job :=
  let job1 := { job with
    name := dto.name.getD job.name,
    description := match dto.description with
      | some d => some d
      | none => job.description,
    payload := match dto.payload with
      | some p => some p
      | none => job.payload,
    scheduledAt := match dto.scheduledAt with
      | some d => some d
      | none => job.scheduledAt,
    recurrencePattern := match dto.recurrencePattern with
      | some r => some r
      | none => job.recurrencePattern,
    maxRetries := match dto.maxRetries with
      | some m => m.toNat
      | none => job.maxRetries }
  match dto.scheduledAt with
  | some d => { job1 with nextRunAt := some d }
  | none => job1

/-- `JobRepository.update`: `findById` (NotFound when absent), apply the
patch, save. -/
def repositoryUpdate (st : SystemState) (id userId : Nat) (dto : UpdateJobDto) :
    SystemState × Except ServiceError Job :=
  match findByIdUser st.jobs id userId with
  | none => (st, Except.error ServiceError.notFound)
  | some job =>
    let job2 := updateTransition job dto
    ({ st with jobs := saveJob st.jobs job2 }, Except.ok job2)

/-- `JobsService.updateJob`: delegate to the repository, then reschedule the
wake-up (cancel + schedule, with the updated job) only when the patch
carries `scheduledAt`. -/
def updateJob (st : SystemState) (id userId : Nat) (dto : UpdateJobDto) :
    SystemState × Except ServiceError Job :=
  match repositoryUpdate st id userId dto with
  | (st1, Except.error e) => (st1, Except.error e)
  | (st1, Except.ok job) =>
    if dto.scheduledAt.isSome then
      ({ st1 with armed := schedulerRescheduleJob st1.armed job }, Except.ok job)
    else
      (st1, Except.ok job)

/-- `JobsService.cancelJob` (`jobs.service.ts` lines 80–96): load the job
(NotFound when absent); throw before any mutation when the status is
`completed` or `cancelled`; otherwise set `status = cancelled`,
`isActive = false`, save, and cancel the scheduled wake-up. -/
def cancelJob (st : SystemState) (id userId : Nat) :
    SystemState × Except ServiceError Job :=
  match findByIdUser st.jobs id userId with
  | none => (st, Except.error ServiceError.notFound)
  | some job =>
    if job.status = JobStatus.completed ∨ job.status = JobStatus.cancelled then
      (st, Except.error (ServiceError.cannotCancel job.status))
    else
      let job1 := { job with status := JobStatus.cancelled, isActive := false }
      let st1 := { st with jobs := saveJob st.jobs job1 }
      ({ st1 with armed := schedulerCancelJob st1.armed id }, Except.ok job1)

/-- `JobsService.deleteJob`: cancel the wake-up, then delete the document. -/
def deleteJob (st : SystemState) (id userId : Nat) : SystemState :=
  let st1 := { st with armed := schedulerCancelJob st.armed id }
  match findByIdUser st1.jobs id userId with
  | none => st1
  | some job => { st1 with jobs := st1.jobs.filter (fun j => j.id != job.id) }

/-- An Execution Capability that always fails (Scenario A of the spec). -/
def alwaysFailExec : Job → Except String String :=
  fun _ => Except.error "Execution failed"

/-- An Execution Capability that always succeeds. -/
def alwaysOkExec : Job → Except String String :=
  fun _ => Except.ok "done"

/-! ### Concrete fixtures used by counterexamples and witnesses -/

/-- A fixed instant (2026-01-20T10:00, month 0-indexed). -/
def dt0 : DateTime := ⟨2026, 0, 20, 10⟩

/-- A later instant (2026-01-25T10:00) used as a rescheduling target. -/
def dt1 : DateTime := ⟨2026, 0, 25, 10⟩

/-- The empty system state. -/
def emptyState : SystemState :=
  { jobs := [], executions := [], armed := [], nextExecId := 0 }

/-- A freshly created one-time pending job (schema defaults). -/
def basePendingJob : Job := {
  id := 1, userId := 7, name := "Test Job", description := none,
  type := JobType.oneTime, status := JobStatus.pending, payload := none,
  scheduledAt := some dt0, startedAt := none, completedAt := none,
  recurrencePattern := none, retryCount := 0, maxRetries := 3,
  errorMessage := none, result := none, nextRunAt := some dt0, isActive := true }

/-- State holding the pending job, its wake-up just delivered (consumed). -/
def stPending : SystemState :=
  { jobs := [basePendingJob], executions := [], armed := [], nextExecId := 0 }

/-- State holding the pending job with its Bull entry still queued
(first delivery pending; `attempts = maxRetries + 1 = 4`). -/
def stPendingArmed : SystemState :=
  { jobs := [basePendingJob], executions := [],
    armed := [{ jobId := 1, attemptsMade := 0, attempts := 4 }], nextExecId := 0 }

/-- A one-time pending job with `maxRetries = 0` (Scenario A of the spec). -/
def jobMaxZero : Job := { basePendingJob with maxRetries := 0 }

/-- State holding the `maxRetries = 0` job, wake-up just delivered. -/
def stMaxZero : SystemState :=
  { jobs := [jobMaxZero], executions := [], armed := [], nextExecId := 0 }

/-- A stored completed job (as persisted by line 153 of the success path). -/
def completedJob : Job := { basePendingJob with
  status := JobStatus.completed, startedAt := some dt0,
  completedAt := some dt0, result := some "done" }

/-- State holding the completed job. -/
def stCompleted : SystemState :=
  { jobs := [completedJob], executions := [], armed := [], nextExecId := 0 }

/-- A permanently failed job (retries exhausted). -/
def failedJob : Job := { basePendingJob with
  status := JobStatus.failed, retryCount := 3,
  errorMessage := some "Execution failed" }

/-- State holding the failed job. -/
def stFailed : SystemState :=
  { jobs := [failedJob], executions := [], armed := [], nextExecId := 0 }

/-- A cancelled job with the claimed invariant holding (inactive). -/
def cancelledJob : Job := { basePendingJob with
  status := JobStatus.cancelled, isActive := false }

/-- State holding the cancelled job, nothing armed — the C4 invariant holds
here. -/
def stCancelled : SystemState :=
  { jobs := [cancelledJob], executions := [], armed := [], nextExecId := 0 }

/-- A patch renaming the job, nothing else. -/
def patchName : UpdateJobDto :=
  { name := some "Updated Job", description := none, payload := none,
    scheduledAt := none, recurrencePattern := none, maxRetries := none }

/-- A patch changing only `scheduledAt`. -/
def patchSched : UpdateJobDto :=
  { name := none, description := none, payload := none,
    scheduledAt := some dt1, recurrencePattern := none, maxRetries := none }

/-- A one-time dto that nevertheless carries a recurrence pattern
(recurrence/type mismatch). -/
def dtoMismatch : CreateJobDto :=
  { name := "Test Job", description := none, type := JobType.oneTime,
    payload := none, scheduledAt := some dt0,
    recurrencePattern := some RecurrencePattern.daily, maxRetries := some 3 }

/-- A dto whose `maxRetries` exceeds the allowed maximum of 10. -/
def dtoBadRetries : CreateJobDto :=
  { dtoMismatch with recurrencePattern := none, maxRetries := some 11 }

/-! ### Helper lemmas -/

/-- `handleJobFailure` saves the mutated job and then rejects at its final
`logExecution` (the document insert): no execution record is added. -/
theorem handleJobFailure_state (now : DateTime) (st : SystemState) (job : Job)
    (execution : JobExecution) (msg : String) :
    handleJobFailure now st job execution msg =
      ({ st with jobs := saveJob st.jobs (failureTransition job msg) },
        Except.error logValidationErrorMessage) := rfl

/-- Closed form of `executeJob` when the capability fails: the provisional
record is the only insert, the job is saved running and then per
`failureTransition`, and the call rejects. -/
theorem executeJob_failure_eq (execCap : Job → Except String String) (now : DateTime)
    (st : SystemState) (jobId : Nat) (job : Job) (msg : String)
    (hfind : findJob st.jobs jobId = some job)
    (hec : execCap (runningJob job now) = Except.error msg) :
    executeJob execCap now st jobId =
      ({ st with
          jobs := saveJob (saveJob st.jobs (runningJob job now))
                    (failureTransition (runningJob job now) msg),
          executions := st.executions ++ [{ provisionalRecord job now with id := st.nextExecId }],
          nextExecId := st.nextExecId + 1 },
        Except.error logValidationErrorMessage) := by
  unfold executeJob
  rw [hfind]
  simp only [logExecution, insertExecution]
  simp only [hec]
  rw [handleJobFailure_state]

/-- Closed form of `executeJob` when the capability succeeds: the
finalization insert (line 154) rejects, control falls into
`handleJobFailure`, and the call rejects with the job saved per
`failureTransition` of the completed document. -/
theorem executeJob_success_eq (execCap : Job → Except String String) (now : DateTime)
    (st : SystemState) (jobId : Nat) (job : Job) (res : String)
    (hfind : findJob st.jobs jobId = some job)
    (hec : execCap (runningJob job now) = Except.ok res) :
    executeJob execCap now st jobId =
      ({ st with
          jobs := saveJob (saveJob (saveJob st.jobs (runningJob job now))
                    (completedOf (runningJob job now) now res))
                    (failureTransition (completedOf (runningJob job now) now res)
                      logValidationErrorMessage),
          executions := st.executions ++ [{ provisionalRecord job now with id := st.nextExecId }],
          nextExecId := st.nextExecId + 1 },
        Except.error logValidationErrorMessage) := by
  unfold executeJob
  rw [hfind]
  simp only [logExecution, insertExecution]
  simp only [hec]
  rw [handleJobFailure_state]

/-- Saving a document with the id under which a lookup succeeded makes the
lookup return the saved document. -/
theorem findJob_saveJob (jobs : List Job) (i : Nat) (job j : Job)
    (hfind : findJob jobs i = some job) (hid : j.id = i) :
    findJob (saveJob jobs j) i = some j := by
  induction jobs with
  | nil => simp [findJob] at hfind
  | cons a t ih =>
      by_cases ha : a.id = i
      · have haj : (a.id == j.id) = true := by simp [ha, hid]
        have hji : (j.id == i) = true := by simp [hid]
        simp [findJob, saveJob, List.find?, haj, hji]
      · have h1 : (a.id == i) = false := by simp [ha]
        have hane : a.id ≠ j.id := by
          rw [hid]
          exact ha
        have hsave : saveJob (a :: t) j = a :: saveJob t j := by
          simp [saveJob, hane]
        rw [hsave]
        have hstep : findJob (a :: saveJob t j) i = findJob (saveJob t j) i := by
          simp [findJob, List.find?, h1]
        rw [hstep]
        exact ih (by simpa [findJob, List.find?, h1] using hfind)

/-- `normDays` stops as soon as the day fits the (normalized) month. -/
theorem normDays_stop (fuel y m d : Nat)
    (h : d ≤ daysInMonth (y + m / 12) (m % 12)) :
    normDays (fuel + 1) y m d = (y + m / 12, m % 12, d) := by
  simp [normDays, h]

/-- `normDays` borrows one month when the day overflows it. -/
theorem normDays_borrow (fuel y m d : Nat)
    (h : ¬ d ≤ daysInMonth (y + m / 12) (m % 12)) :
    normDays (fuel + 1) y m d =
      normDays fuel (y + m / 12) (m % 12 + 1) (d - daysInMonth (y + m / 12) (m % 12)) := by
  simp [normDays, h]

deriving instance DecidableEq for Except

/-! ### Claim C1 — duplicate wake-up delivery -/

/-- C1 counterexample: the claim says a wake-up delivered for a job already
out of `pending` is a no-op with no new `JobExecution`. In the source,
`executeJob` performs no status check: delivered for a job whose status is
`completed`, with a failing capability, it transitions the job to `pending`
and appends a new (provisional) `JobExecution` document. -/
theorem executeJob_duplicate_delivery_not_noop :
    ((executeJob alwaysFailExec dt0 stCompleted 1).1.jobs.find? (fun j => j.id == 1)).map Job.status
        = some JobStatus.pending
    ∧ (executeJob alwaysFailExec dt0 stCompleted 1).1.executions.length
        = stCompleted.executions.length + 1 :=
  ⟨rfl, rfl⟩

/-- C1 (corrected): `executeJob` is a no-op only when the job id is absent;
for any existing job, regardless of its status, it inserts exactly one new
`JobExecution` document (the provisional record — the finalization insert
always rejects), re-runs the execution path, and rejects. -/
theorem executeJob_found_appends_one_record_and_rejects
    (execCap : Job → Except String String) (now : DateTime) (st : SystemState)
    (jobId : Nat) (job : Job)
    (h : findJob st.jobs jobId = some job) :
    (executeJob execCap now st jobId).1.executions.length = st.executions.length + 1
    ∧ (executeJob execCap now st jobId).2 ≠ Except.ok () := by
  cases hec : execCap (runningJob job now) with
  | ok res =>
      rw [executeJob_success_eq execCap now st jobId job res h hec]
      constructor <;> simp
  | error msg =>
      rw [executeJob_failure_eq execCap now st jobId job msg h hec]
      constructor <;> simp

/-- C1 witness: the theorem applied to the concrete pending job. -/
theorem executeJob_found_appends_one_record_and_rejects_witness :
    (executeJob alwaysOkExec dt0 stPending 1).1.executions.length
        = stPending.executions.length + 1
    ∧ (executeJob alwaysOkExec dt0 stPending 1).2 ≠ Except.ok () :=
  executeJob_found_appends_one_record_and_rejects alwaysOkExec dt0 stPending 1
    basePendingJob rfl

/-! ### Claim C2 — retry re-arming -/

/-- C2 (confirmed): when the capability fails and the incremented
`retryCount` is still strictly below `maxRetries`, the delivery leaves the
job stored with `status = pending`, and a redelivery of the wake-up is
re-armed in the dispatch substrate: `handleJobFailure`'s final insert
rejects, `executeJob` rejects, the processor rethrows, and Bull re-queues
the entry (its attempt counter is below `attempts = maxRetries + 1`), so
the occurrence is retried. -/
theorem deliverWakeUp_retryable_failure_rearms
    (execCap : Job → Except String String) (msg : String) (now : DateTime)
    (st : SystemState) (jobId : Nat) (job : Job) (entry : QueueEntry)
    (hfind : findJob st.jobs jobId = some job)
    (hentry : st.armed.find? (fun e => e.jobId == jobId) = some entry)
    (hfail : ∀ j, execCap j = Except.error msg)
    (hretry : job.retryCount + 1 < job.maxRetries)
    (hatt : entry.attemptsMade = job.retryCount)
    (hatts : entry.attempts = job.maxRetries + 1) :
    findJob (deliverWakeUp execCap now st jobId).jobs jobId
        = some (failureTransition (runningJob job now) msg)
    ∧ (failureTransition (runningJob job now) msg).status = JobStatus.pending
    ∧ (deliverWakeUp execCap now st jobId).armed.any (fun e => e.jobId == jobId) = true := by
  have h0 : List.find? (fun j => j.id == jobId) st.jobs = some job := by
    simpa [findJob] using hfind
  have hjobid : job.id = jobId := by simpa using List.find?_some h0
  have hejobid : entry.jobId = jobId := by simpa using List.find?_some hentry
  have hcond : entry.attemptsMade + 1 < entry.attempts := by omega
  have hexec := executeJob_failure_eq execCap now
    { st with armed := st.armed.filter (fun e => e.jobId != jobId) } jobId job msg hfind (hfail _)
  unfold deliverWakeUp
  simp only [hentry]
  simp only [hexec]
  rw [if_pos hcond]
  refine ⟨?_, ?_, ?_⟩
  · have hrid : (runningJob job now).id = jobId := by simp [runningJob, hjobid]
    have hfid : (failureTransition (runningJob job now) msg).id = jobId := by
      by_cases hc : job.maxRetries ≤ job.retryCount + 1 <;>
        simp [failureTransition, runningJob, ge_iff_le, hc, hjobid]
    have step1 : findJob (saveJob st.jobs (runningJob job now)) jobId
        = some (runningJob job now) :=
      findJob_saveJob st.jobs jobId job (runningJob job now) hfind hrid
    exact findJob_saveJob _ jobId (runningJob job now)
      (failureTransition (runningJob job now) msg) step1 hfid
  · have hc : ¬ (job.maxRetries ≤ job.retryCount + 1) := by omega
    simp [failureTransition, runningJob, ge_iff_le, hc]
  · refine List.any_eq_true.mpr ?_
    refine ⟨{ entry with attemptsMade := entry.attemptsMade + 1 }, ?_, ?_⟩
    · exact List.mem_append_right _ (List.mem_singleton.mpr rfl)
    · simpa using hejobid

/-- C2 witness: the theorem applied to the concrete armed pending job. -/
theorem deliverWakeUp_retryable_failure_rearms_witness :
    findJob (deliverWakeUp alwaysFailExec dt0 stPendingArmed 1).jobs 1
        = some (failureTransition (runningJob basePendingJob dt0) "Execution failed")
    ∧ (failureTransition (runningJob basePendingJob dt0) "Execution failed").status
        = JobStatus.pending
    ∧ (deliverWakeUp alwaysFailExec dt0 stPendingArmed 1).armed.any
        (fun e => e.jobId == 1) = true :=
  deliverWakeUp_retryable_failure_rearms alwaysFailExec "Execution failed" dt0
    stPendingArmed 1 basePendingJob ⟨1, 0, 4⟩ rfl rfl (fun _ => rfl) (by decide) rfl rfl

/-! ### Claim C3 — retryCount bounded by maxRetries -/

/-- C3 counterexample: with `maxRetries = 0`, the single failed attempt
increments `retryCount` to 1 (persisted by `job.save()` before the crashing
log call), which strictly exceeds `maxRetries` — the claimed invariant
`retryCount ≤ maxRetries` is violated by the code. -/
theorem retryCount_exceeds_maxRetries_at_zero :
    ((executeJob alwaysFailExec dt0 stMaxZero 1).1.jobs.find?
        (fun j => j.maxRetries < j.retryCount)).isSome = true := by
  decide

/-- C3 (corrected): each failed attempt increments `retryCount` by exactly
one — so it can exceed `maxRetries` when `maxRetries = 0` — and the job ends
`failed` precisely when the incremented count reaches `maxRetries`
(equality included), `pending` otherwise. -/
theorem failureTransition_increments_and_fails_at_cap (job : Job) (msg : String) :
    (failureTransition job msg).retryCount = job.retryCount + 1
    ∧ (failureTransition job msg).status =
        (if job.maxRetries ≤ job.retryCount + 1 then JobStatus.failed
         else JobStatus.pending) := by
  by_cases hc : job.maxRetries ≤ job.retryCount + 1 <;>
    constructor <;> simp [failureTransition, ge_iff_le, hc]

/-! ### Claim C4 — terminal status implies inactive and disarmed -/

/-- C4 counterexample: the claim says the invariant is preserved by every
operation, `updateJob` included. Starting from a state where it holds (a
cancelled, inactive job with nothing armed), `updateJob` with a
`scheduledAt` patch reschedules: the job stays `cancelled` but a wake-up is
re-armed for it, breaking the no-wake-up-armed half. -/
theorem updateJob_rearms_cancelled_job :
    ((updateJob stCancelled 1 7 patchSched).1.jobs.find? (fun j => j.id == 1)).map Job.status
        = some JobStatus.cancelled
    ∧ (updateJob stCancelled 1 7 patchSched).1.armed.any (fun e => e.jobId == 1) = true := by
  decide

/-- C4 (corrected): the invariant holds as the immediate postcondition of
`cancelJob`: a successful cancellation leaves the job `cancelled` with
`isActive = false` and no wake-up armed for its id. It is not an invariant
preserved by every operation (see the counterexample). -/
theorem cancelJob_success_terminal_invariant (st : SystemState) (id userId : Nat) (job : Job)
    (hfind : findByIdUser st.jobs id userId = some job)
    (hnc : job.status ≠ JobStatus.completed ∧ job.status ≠ JobStatus.cancelled) :
    (cancelJob st id userId).2 =
        Except.ok { job with status := JobStatus.cancelled, isActive := false }
    ∧ (cancelJob st id userId).1.armed.all (fun e => e.jobId != id) = true := by
  unfold cancelJob
  rw [hfind]
  simp only [Option.some.injEq]
  rw [if_neg (by tauto)]
  refine ⟨rfl, ?_⟩
  simp only [schedulerCancelJob, List.all_eq_true, List.mem_filter]
  tauto

/-- C4 witness: the theorem applied to the concrete pending job. -/
theorem cancelJob_success_terminal_invariant_witness :
    (cancelJob stPending 1 7).2 =
        Except.ok { basePendingJob with status := JobStatus.cancelled, isActive := false }
    ∧ (cancelJob stPending 1 7).1.armed.all (fun e => e.jobId != 1) = true :=
  cancelJob_success_terminal_invariant stPending 1 7 basePendingJob rfl (by decide)

/-! ### Claim C5 — Scenario A execution history -/

/-- C5 counterexample: the claim says the single record is created
provisional and then finalized in place. In the source the finalization
insert rejects (document spread loses the required fields), so after the
attempt the stored record is still the untouched provisional one: its
`completedAt` and `errorMessage` were never set. -/
theorem scenarioA_record_never_finalized :
    ((getExecutionHistory (executeJob alwaysFailExec dt0 stMaxZero 1).1 1).head?).map
        (fun e => e.completedAt) = some none
    ∧ ((getExecutionHistory (executeJob alwaysFailExec dt0 stMaxZero 1).1 1).head?).map
        (fun e => e.errorMessage) = some none := by
  decide

/-- C5 (corrected): in Scenario A the job ends with `status = failed` and
the history holds exactly one `JobExecution` entry with outcome failed and
attempt number 1 — but it is the provisional record created at attempt
start, never finalized (the finalization insert always rejects). -/
theorem scenarioA_failed_single_provisional_record :
    ((executeJob alwaysFailExec dt0 stMaxZero 1).1.jobs.find? (fun j => j.id == 1)).map Job.status
        = some JobStatus.failed
    ∧ (getExecutionHistory (executeJob alwaysFailExec dt0 stMaxZero 1).1 1).length = 1
    ∧ (getExecutionHistory (executeJob alwaysFailExec dt0 stMaxZero 1).1 1).all
        (fun e => e.status == ExecutionStatus.failed && e.attemptNumber == 1) = true := by
  decide

/-! ### Claim C6 — createJob validation -/

/-- C6 counterexample: a one-time dto carrying a recurrence pattern (a
recurrence/type mismatch) is not rejected: `createJob` persists the job and
arms a wake-up, because no validator relates `recurrencePattern` to `type`. -/
theorem createJob_accepts_recurrence_type_mismatch :
    (createJob emptyState 7 dtoMismatch dt0 1).2 ≠ Except.error ServiceError.validationError
    ∧ (createJob emptyState 7 dtoMismatch dt0 1).1.jobs.length = 1
    ∧ (createJob emptyState 7 dtoMismatch dt0 1).1.armed
        = [{ jobId := 1, attemptsMade := 0, attempts := 4 }] := by
  decide

/-- C6 (corrected): of the two claimed validations only the `maxRetries`
range check exists: a dto whose `maxRetries` lies outside `[0, 10]` is
rejected with a validation error before any job is persisted or armed
(the returned state is exactly the input state). -/
theorem createJob_rejects_maxRetries_out_of_range (st : SystemState) (userId : Nat)
    (dto : CreateJobDto) (now : DateTime) (newId : Nat) (m : Int)
    (hm : dto.maxRetries = some m) (hout : m < 0 ∨ 10 < m) :
    createJob st userId dto now newId = (st, Except.error ServiceError.validationError) := by
  have hval : validateCreateJobDto dto = false := by
    unfold validateCreateJobDto
    rw [hm]
    rcases hout with h | h
    · simp [decide_eq_false (not_le.mpr h)]
    · simp [decide_eq_false (not_le.mpr h)]
  unfold createJob
  rw [hval]
  simp

/-- C6 witness: the theorem applied to a dto with `maxRetries = 11`. -/
theorem createJob_rejects_maxRetries_out_of_range_witness :
    createJob emptyState 7 dtoBadRetries dt0 1
      = (emptyState, Except.error ServiceError.validationError) :=
  createJob_rejects_maxRetries_out_of_range emptyState 7 dtoBadRetries dt0 1 11 rfl
    (Or.inr (by decide))

/-! ### Claim C7 — updates of terminal jobs -/

/-- C7 counterexample: `updateJob` on a job whose status is `completed`
(a terminal state) is not rejected: the patch is applied and the stored
job's name changes while its status stays `completed`. -/
theorem updateJob_mutates_completed_job :
    ((updateJob stCompleted 1 7 patchName).1.jobs.find? (fun j => j.id == 1)).map Job.name
        = some "Updated Job"
    ∧ ((updateJob stCompleted 1 7 patchName).1.jobs.find? (fun j => j.id == 1)).map Job.status
        = some JobStatus.completed
    ∧ (updateJob stCompleted 1 7 patchName).2 ≠ Except.error ServiceError.notFound := by
  decide

/-- C7 (corrected): `updateJob` rejects only a missing job; whenever the job
exists for the owner it returns the patched job (per `Object.assign`
semantics) regardless of status — terminal jobs included. -/
theorem updateJob_applies_patch_regardless_of_status (st : SystemState) (id userId : Nat)
    (dto : UpdateJobDto) (job : Job)
    (hfind : findByIdUser st.jobs id userId = some job) :
    (updateJob st id userId dto).2 = Except.ok (updateTransition job dto) := by
  unfold updateJob repositoryUpdate
  rw [hfind]
  split
  · simp_all
  · rename_i st1 job1 heq
    simp only [Prod.mk.injEq, Except.ok.injEq] at heq
    obtain ⟨h1, h2⟩ := heq
    subst h2
    split <;> rfl

/-- C7 witness: the theorem applied to the concrete completed job. -/
theorem updateJob_applies_patch_regardless_of_status_witness :
    (updateJob stCompleted 1 7 patchName).2
      = Except.ok (updateTransition completedJob patchName) :=
  updateJob_applies_patch_regardless_of_status stCompleted 1 7 patchName completedJob rfl

/-! ### Claim C8 — cancelling a terminal job -/

/-- C8 (confirmed): `cancelJob` on an existing job whose status is
`completed` or `cancelled` fails with the invalid-state error and returns
the system state completely unchanged (no job field modified, the armed
wake-ups untouched) — the throw happens before any mutation. -/
theorem cancelJob_terminal_rejected_state_unchanged (st : SystemState) (id userId : Nat)
    (job : Job)
    (hfind : findByIdUser st.jobs id userId = some job)
    (hterm : job.status = JobStatus.completed ∨ job.status = JobStatus.cancelled) :
    cancelJob st id userId = (st, Except.error (ServiceError.cannotCancel job.status)) := by
  unfold cancelJob
  rw [hfind]
  show (if job.status = JobStatus.completed ∨ job.status = JobStatus.cancelled
        then _ else _) = _
  rw [if_pos hterm]

/-- C8 witness: the theorem applied to the concrete completed job. -/
theorem cancelJob_terminal_rejected_state_unchanged_witness :
    cancelJob stCompleted 1 7
      = (stCompleted, Except.error (ServiceError.cannotCancel completedJob.status)) :=
  cancelJob_terminal_rejected_state_unchanged stCompleted 1 7 completedJob rfl (Or.inl rfl)

/-! ### Claim C9 — monthly recurrence from January 31 -/

/-- C9 counterexample: the claim says `nextTime(from, monthly)` clamps to
the target month's last valid day, so January 31, 2025 should map to
February 28, 2025. The source relies on native `setMonth` rollover and
returns March 3, 2025 instead. -/
theorem calculateNextRunTime_monthly_jan31_rollover_value :
    calculateNextRunTime ⟨2025, 0, 31, 10⟩ RecurrencePattern.monthly = ⟨2025, 2, 3, 10⟩
    ∧ calculateNextRunTime ⟨2025, 0, 31, 10⟩ RecurrencePattern.monthly ≠ ⟨2025, 1, 28, 10⟩ := by
  decide

/-- C9 (corrected): for every year, `calculateNextRunTime` on monthly from
January 31 advances the month index and lets the day overflow roll into
March — March 2 in leap years, March 3 otherwise — never clamping to the
last day of February. -/
theorem calculateNextRunTime_monthly_jan31_rolls_over (y h : Nat) :
    calculateNextRunTime ⟨y, 0, 31, h⟩ RecurrencePattern.monthly =
      (if isLeapYear y then ⟨y, 2, 2, h⟩ else ⟨y, 2, 3, h⟩ : DateTime) := by
  have hd1 : daysInMonth y 1 = if isLeapYear y then 29 else 28 := rfl
  have hd2 : daysInMonth y 2 = 31 := rfl
  show addMonthsJS ⟨y, 0, 31, h⟩ 1 = _
  unfold addMonthsJS
  cases hl : isLeapYear y
  · have h1 : normDays 60 y (0 + 1) 31 = normDays 59 y 2 3 := by
      have hb := normDays_borrow 59 y 1 31 (by norm_num [hd1, hl])
      norm_num [hd1, hl] at hb
      simpa using hb
    have h2 : normDays 59 y 2 3 = (y, 2, 3) := by
      have hs := normDays_stop 58 y 2 3 (by norm_num [hd2])
      norm_num at hs
      simpa using hs
    simp [h1, h2, hl]
  · have h1 : normDays 60 y (0 + 1) 31 = normDays 59 y 2 2 := by
      have hb := normDays_borrow 59 y 1 31 (by norm_num [hd1, hl])
      norm_num [hd1, hl] at hb
      simpa using hb
    have h2 : normDays 59 y 2 2 = (y, 2, 2) := by
      have hs := normDays_stop 58 y 2 2 (by norm_num [hd2])
      norm_num at hs
      simpa using hs
    simp [h1, h2, hl]

/-! ### Claim C10 — cancelling a permanently failed job -/

/-- C10 (confirmed): the terminal-state guard of `cancelJob` rejects only
`completed` and `cancelled`; on an existing job with `status = failed` the
cancellation succeeds, returning the job with `status = cancelled` and
`isActive = false`. -/
theorem cancelJob_failed_job_succeeds (st : SystemState) (id userId : Nat) (job : Job)
    (hfind : findByIdUser st.jobs id userId = some job)
    (hfailed : job.status = JobStatus.failed) :
    (cancelJob st id userId).2 =
      Except.ok { job with status := JobStatus.cancelled, isActive := false } := by
  unfold cancelJob
  rw [hfind]
  show ((if job.status = JobStatus.completed ∨ job.status = JobStatus.cancelled
        then _ else _ : SystemState × Except ServiceError Job)).2 = _
  rw [if_neg (by simp [hfailed])]

/-- C10 witness: the theorem applied to the concrete failed job. -/
theorem cancelJob_failed_job_succeeds_witness :
    (cancelJob stFailed 1 7).2 =
      Except.ok { failedJob with status := JobStatus.cancelled, isActive := false } :=
  cancelJob_failed_job_succeeds stFailed 1 7 failedJob rfl rfl
